import Mathlib

/-!
Verification of the expression-to-regex rewriting engine and the
argument-extraction path of the cucumber-expressions library
(`cucumber_expression.go`).  Pure Go functions are translated into Lean
functions; the mutation of the receiver in `Match` is made explicit by
returning the receiver's final state.  Collaborators that live outside the
rewritten core (the AST produced by the parser, the parameter-type values,
the registry, the compiled tree regexp and the argument builder) are
modelled from the specification, as documented on each definition.
-/

namespace CucumberExpressions

/-- The error values surfaced by the core: grammar/lookup errors carry a
message or the offending type name; transform failures and Go panics are
distinguished match-time failures. -/
inductive Err where
  | cucumberExpressionError (message : String)
  | undefinedParameterType (typeName : String)
  | invalidParameterTypeName (typeName : String)
  | transformError (message : String)
  | panicError (message : String)
deriving DecidableEq

/-- Modelled from the spec: a runtime type hint (Go `reflect.Type`); only
its name is observable to the core. -/
structure GoType where
  name : String
deriving DecidableEq

/-- The type of Go's empty string literal, `reflect.TypeOf("")`: the
default hint used by `Match` when the caller supplies none. -/
def stringType : GoType := GoType.mk "string"

/-- Modelled from the spec: a transformed, typed argument value
(`interface\x7b\x7d` in Go). -/
inductive Value where
  | str (s : String)
  | int (n : Int)
  | other (tag : String)
deriving DecidableEq

/-- Modelled from the spec: a Parameter Type carries a name, one or more
alternative capture-regex fragments, a transform from the matched strings
to a typed value, and an anonymous flag.  A transform failure (modelled as
`Except.error`, covering both Go error returns and panics) rejects the
matched text. -/
structure ParameterType where
  name : String
  regexps : List String
  anonymous : Bool
  transform : List (Option String) → Except Err Value

/-- Modelled from the spec: whether the type's concrete value type is
unresolved until match time. -/
def ParameterType.isAnonymous (p : ParameterType) : Bool := p.anonymous

/-- Modelled from the spec: de-anonymization produces a new, non-anonymous
Parameter Type with the same capture fragments, the hint's type name and
the supplied transformer, without altering the original (the Go version
returns a `(ParameterType, error)` pair, hence the `Except`). -/
def ParameterType.deAnonymize (p : ParameterType) (typeHint : GoType)
    (transformer : List (Option String) → Except Err Value) : Except Err ParameterType :=
  Except.ok { p with name := typeHint.name, anonymous := false, transform := transformer }

/-- Modelled from the spec: the registry is a lookup-by-name service over
Parameter Types and supplies the default transformer used for anonymous
types (`Transform(s string, typeHint reflect.Type)`). -/
structure ParameterTypeRegistry where
  lookupByTypeName : String → Option ParameterType
  defaultTransformer : String → GoType → Except Err Value

/-- Modelled from the spec: the external structural mapper.  A compiled
tree regexp carries the pattern source and, for a given input text, either
no-match or the extracted substrings per parameter position (an unmatched
optional group yields `none`). -/
structure TreeRegexp where
  pattern : String
  matchGroups : String → Option (List (List (Option String)))

/-- Translation of the `CucumberExpression` struct. -/
structure CucumberExpression where
  source : String
  parameterTypes : List ParameterType
  treeRegexp : TreeRegexp
  parameterTypeRegistry : ParameterTypeRegistry

/-- Modelled from the spec: an Argument carries the transformed value for
one parameter position. -/
structure Argument where
  value : Value
deriving DecidableEq

/-- Translation of `objectMapperTransformer`: the returned closure
dereferences its first argument (`*args[0]`, a Go panic when absent or
nil, modelled as `Err.panicError`) and delegates to the registry's default
transformer bound to the type hint; a transformer error is a Go
`panic(err)`, modelled as propagating the error. -/
def objectMapperTransformer (c : CucumberExpression) (typeHint : GoType) :
    List (Option String) → Except Err Value :=
  fun args =>
    match args with
    | [] => Except.error (Err.panicError "runtime error: index out of range")
    | none :: _ => Except.error (Err.panicError "runtime error: invalid memory address or nil pointer dereference")
    | some s :: _ =>
      match c.parameterTypeRegistry.defaultTransformer s typeHint with
      | Except.error e => Except.error e
      | Except.ok v => Except.ok v

/-- Translation of the `hintOrDefault` closure in `Match`: the hint for
position `i`, defaulting to the string type when the hint list is too
short. -/
def hintOrDefault (i : Nat) (typeHints : List GoType) : GoType :=
  match typeHints[i]? with
  | some t => t
  | none => stringType

/-- Translation of the de-anonymization loop in `Match` over the private
copy of the parameter-type list; `i` is the loop index.  An error from
`deAnonymize` returns immediately. -/
def deAnonymizeAll (c : CucumberExpression) (typeHints : List GoType) :
    Nat → List ParameterType → Except Err (List ParameterType)
  | _, [] => Except.ok []
  | i, pt :: rest =>
    if pt.isAnonymous then
      match pt.deAnonymize (hintOrDefault i typeHints) (objectMapperTransformer c (hintOrDefault i typeHints)) with
      | Except.error e => Except.error e
      | Except.ok pt2 =>
        match deAnonymizeAll c typeHints (i + 1) rest with
        | Except.error e => Except.error e
        | Except.ok rest2 => Except.ok (pt2 :: rest2)
    else
      match deAnonymizeAll c typeHints (i + 1) rest with
      | Except.error e => Except.error e
      | Except.ok rest2 => Except.ok (pt :: rest2)

/-- Transformation step of argument building, modelled from the spec: for
each parameter position, invoke that position's type's transform on the
extracted substrings; a transform failure propagates as an error out of
the whole match call. -/
def transformAll : List ParameterType → List (List (Option String)) → Except Err (List Argument)
  | [], _ => Except.ok []
  | _ :: _, [] => Except.ok []
  | pt :: pts, g :: gs =>
    match pt.transform g with
    | Except.error e => Except.error e
    | Except.ok v =>
      match transformAll pts gs with
      | Except.error e => Except.error e
      | Except.ok rest => Except.ok (Argument.mk v :: rest)

/-- Modelled from the spec: `BuildArguments` runs the compiled regex
against the text; if it does not match the result is no-match (`none`, not
an error); otherwise one Argument per parameter position is produced by
invoking the (possibly de-anonymized) type's transform on the extracted
substrings, and a transform failure is fatal to the whole match call. -/
def BuildArguments (tr : TreeRegexp) (text : String) (parameterTypes : List ParameterType) :
    Except Err (Option (List Argument)) :=
  match tr.matchGroups text with
  | none => Except.ok none
  | some groupValues =>
    match transformAll parameterTypes groupValues with
    | Except.error e => Except.error e
    | Except.ok args => Except.ok (some args)

/-- Translation of `Match`.  The method reads the receiver but writes none
of its fields: the state passing makes this explicit by returning the
receiver's state at return time as the second component. -/
def Match (c : CucumberExpression) (text : String) (typeHints : List GoType) :
    Except Err (Option (List Argument)) × CucumberExpression :=
  match deAnonymizeAll c typeHints 0 c.parameterTypes with
  | Except.error e => (Except.error e, c)
  | Except.ok parameterTypes => (BuildArguments c.treeRegexp text parameterTypes, c)

/-- The node kinds of the expression tree (the `nodeType` enumeration of
the external parser's AST). -/
inductive NodeType where
  | textNode
  | optionalNode
  | alternationNode
  | alternativeNode
  | parameterNode
  | expressionNode
deriving DecidableEq

/-- Modelled from the spec: an expression-tree node carries a kind, an
ordered child list and a raw text span (only Text and Parameter nodes
carry meaningful text). -/
inductive astNode where
  | mk (nodeType : NodeType) (nodes : List astNode) (text : String)

/-- The node's kind. -/
def astNode.nodeType : astNode → NodeType
  | astNode.mk nt _ _ => nt

/-- The node's ordered children. -/
def astNode.nodes : astNode → List astNode
  | astNode.mk _ ns _ => ns

/-- Modelled from the spec: the node's raw text span (`node.text()` /
`node.token.text`); for a Parameter node it is the declared type name. -/
def astNode.text : astNode → String
  | astNode.mk _ _ t => t

/-- The message constants of `cucumber_expression.go`; `%s` is the source
expression, so each is a function of it. -/
def alternativesMayNotBeEmpty (source : String) : String :=
  "Alternative may not be empty: " ++ source

/-- Message constant `parameterTypesCanNotBeAlternative`. -/
def parameterTypesCanNotBeAlternative (source : String) : String :=
  "Parameter types cannot be alternative: " ++ source

/-- Message constant `parameterTypesCanNotBeOptional`. -/
def parameterTypesCanNotBeOptional (source : String) : String :=
  "Parameter types cannot be optional: " ++ source

/-- Message constant `alternativeMayNotExclusivelyContainOptionals`. -/
def alternativeMayNotExclusivelyContainOptionals (source : String) : String :=
  "Alternative may not exclusively contain optionals: " ++ source

/-- Message constant `couldNotRewrite`. -/
def couldNotRewrite (source : String) : String :=
  "Could not rewrite " ++ source

/-- Message constant `optionalMayNotBeEmpty`. -/
def optionalMayNotBeEmpty (source : String) : String :=
  "Optional may not be empty: " ++ source

/-- The character class of `escapeRegexp`, in source order:
backslash caret bracket paren brace dollar dot bar question star plus
close-brace close-paren close-bracket. -/
def escapeChars : List Char :=
  ['\\', '^', '[', '(', Char.ofNat 123, '$', '.', '|', '?', '*', '+', Char.ofNat 125, ')', ']']

/-- The character-level scan of `escapeRegexp.ReplaceAllString(expression,
backslash-dollar-one)`: the pattern matches any single character of the
class, and each non-overlapping match is replaced, left to right, by a
backslash followed by the matched character. -/
def processEscapesList : List Char → List Char
  | [] => []
  | ch :: rest =>
    if escapeChars.contains ch then '\\' :: ch :: processEscapesList rest
    else ch :: processEscapesList rest

/-- Translation of `processEscapes`. -/
def processEscapes (expression : String) : String :=
  String.mk (processEscapesList expression.data)

/-- Translation of Go's `strings.Join(elems, sep)`. -/
def stringsJoin (elems : List String) (sep : String) : String :=
  match elems with
  | [] => ""
  | [e] => e
  | e :: rest => e ++ sep ++ stringsJoin rest sep

/-- Translation of the `buildCaptureRegexp` closure in `rewriteParameter`:
a single fragment is wrapped directly as a capturing group; otherwise each
fragment is wrapped as a non-capturing alternative and the alternatives
are joined with a bar inside one capturing group. -/
def buildCaptureRegexp (regexps : List String) : String :=
  match regexps with
  | [r] => "(" ++ r ++ ")"
  | rs => "(" ++ stringsJoin (rs.map (fun r => "(?:" ++ r ++ ")")) "|" ++ ")"

/-- The compile-time data the rewrite methods read from the receiver and
its collaborators: the source expression, the registry, and
`CheckParameterTypeName`.  The latter is Modelled from the spec: it
validates a declared type name against the allowed name-character grammar,
which is external to the rewritten core, so the context carries the
validator itself. -/
structure RewriteCtx where
  source : String
  registry : ParameterTypeRegistry
  checkParameterTypeName : String → Except Err Unit

/-- Translation of `assertNotEmpty` (applied to a node's children): ok as
soon as some direct child is a Text node, otherwise the given message with
the source substituted. -/
def assertNotEmpty (source : String) (nodes : List astNode) (message : String → String) :
    Except Err Unit :=
  if nodes.any (fun n => n.nodeType == NodeType.textNode) then Except.ok ()
  else Except.error (Err.cucumberExpressionError (message source))

/-- Translation of `assertNoParameters` (applied to a node's children):
errors as soon as some direct child is a Parameter node. -/
def assertNoParameters (source : String) (nodes : List astNode) (message : String → String) :
    Except Err Unit :=
  if nodes.any (fun n => n.nodeType == NodeType.parameterNode) then
    Except.error (Err.cucumberExpressionError (message source))
  else Except.ok ()

/-- Translation of the validation loop at the head of
`rewriteAlternation`: for each alternative in order, first the
zero-children check, then the no-parameters check, then the
some-text-child check. -/
def validateAlternatives (source : String) : List astNode → Except Err Unit
  | [] => Except.ok ()
  | alternative :: rest =>
    if alternative.nodes.length = 0 then
      Except.error (Err.cucumberExpressionError (alternativesMayNotBeEmpty source))
    else
      match assertNoParameters source alternative.nodes parameterTypesCanNotBeAlternative with
      | Except.error e => Except.error e
      | Except.ok _ =>
        match assertNotEmpty source alternative.nodes alternativeMayNotExclusivelyContainOptionals with
        | Except.error e => Except.error e
        | Except.ok _ => validateAlternatives source rest

/-- Translation of `rewriteParameter` (minus the closure, translated as
`buildCaptureRegexp` above): validate the declared type name, look it up
in the registry (failing with `UndefinedParameterTypeError` when absent),
append the found Parameter Type to the accumulated list and emit its
capture group. -/
def rewriteParameter (c : RewriteCtx) (typeName : String) (pts : List ParameterType) :
    Except Err (String × List ParameterType) :=
  match c.checkParameterTypeName typeName with
  | Except.error e => Except.error e
  | Except.ok _ =>
    match c.registry.lookupByTypeName typeName with
    | none => Except.error (Err.undefinedParameterType typeName)
    | some parameterType =>
      Except.ok (buildCaptureRegexp parameterType.regexps, pts ++ [parameterType])

mutual

/-- Translation of `rewriteNodeToRegex`: dispatch on the node kind.  The
accumulated parameter-type list (the receiver's `parameterTypes` field,
appended to by `rewriteParameter`) is threaded explicitly.  The Go
`default` case is unreachable here because `NodeType` is closed. -/
def rewriteNodeToRegex (c : RewriteCtx) (node : astNode) (pts : List ParameterType) :
    Except Err (String × List ParameterType) :=
  match node with
  | astNode.mk nt nodes text =>
    match nt with
    | NodeType.textNode => Except.ok (processEscapes text, pts)
    | NodeType.optionalNode => rewriteOptional c nodes pts
    | NodeType.alternationNode => rewriteAlternation c nodes pts
    | NodeType.alternativeNode => rewriteAlternative c nodes pts
    | NodeType.parameterNode => rewriteParameter c text pts
    | NodeType.expressionNode => rewriteExpression c nodes pts

/-- Translation of `rewriteOptional` (taking the node's children): no
parameter children, at least one text child, then a non-capturing optional
wrap. -/
def rewriteOptional (c : RewriteCtx) (nodes : List astNode) (pts : List ParameterType) :
    Except Err (String × List ParameterType) :=
  match assertNoParameters c.source nodes parameterTypesCanNotBeOptional with
  | Except.error e => Except.error e
  | Except.ok _ =>
    match assertNotEmpty c.source nodes optionalMayNotBeEmpty with
    | Except.error e => Except.error e
    | Except.ok _ => rewriteNodesToRegex c nodes "" "(?:" ")?" pts

/-- Translation of `rewriteAlternation` (taking the node's children):
validate every alternative, then join the rewritten alternatives with a
bar inside a non-capturing group. -/
def rewriteAlternation (c : RewriteCtx) (nodes : List astNode) (pts : List ParameterType) :
    Except Err (String × List ParameterType) :=
  match validateAlternatives c.source nodes with
  | Except.error e => Except.error e
  | Except.ok _ => rewriteNodesToRegex c nodes "|" "(?:" ")" pts

/-- Translation of `rewriteAlternative`: a transparent concatenation. -/
def rewriteAlternative (c : RewriteCtx) (nodes : List astNode) (pts : List ParameterType) :
    Except Err (String × List ParameterType) :=
  rewriteNodesToRegex c nodes "" "" "" pts

/-- Translation of `rewriteExpression`: the fully anchored pattern. -/
def rewriteExpression (c : RewriteCtx) (nodes : List astNode) (pts : List ParameterType) :
    Except Err (String × List ParameterType) :=
  rewriteNodesToRegex c nodes "" "^" "$" pts

/-- Translation of `rewriteNodesToRegex`: the builder writes the prefix,
the rewritten children separated by the delimiter, and the suffix; the
first error aborts. -/
def rewriteNodesToRegex (c : RewriteCtx) (nodes : List astNode)
    (delimiter pre suf : String) (pts : List ParameterType) :
    Except Err (String × List ParameterType) :=
  match rewriteNodesList c delimiter nodes pts with
  | Except.error e => Except.error e
  | Except.ok (s, pts2) => Except.ok (pre ++ s ++ suf, pts2)

/-- The loop body of `rewriteNodesToRegex`: rewrite the children in order,
writing the delimiter before every child but the first, threading the
accumulated parameter types, aborting at the first error. -/
def rewriteNodesList (c : RewriteCtx) (delimiter : String) :
    List astNode → List ParameterType → Except Err (String × List ParameterType)
  | [], pts => Except.ok ("", pts)
  | [n], pts => rewriteNodeToRegex c n pts
  | n :: rest, pts =>
    match rewriteNodeToRegex c n pts with
    | Except.error e => Except.error e
    | Except.ok (s, pts1) =>
      match rewriteNodesList c delimiter rest pts1 with
      | Except.error e => Except.error e
      | Except.ok (s2, pts2) => Except.ok (s ++ delimiter ++ s2, pts2)

end

/-- Translation of `NewCucumberExpression` after the external parse step:
the parser has already produced the tree, and the external regex compiler
together with the structural mapper is abstracted as `compileRegexp`.  A
rewrite error aborts construction with no expression value. -/
def NewCucumberExpressionFromTree (c : RewriteCtx) (compileRegexp : String → TreeRegexp)
    (ast : astNode) : Except Err CucumberExpression :=
  match rewriteNodeToRegex c ast [] with
  | Except.error e => Except.error e
  | Except.ok (pattern, pts) =>
    Except.ok { source := c.source, parameterTypes := pts,
                treeRegexp := compileRegexp pattern,
                parameterTypeRegistry := c.registry }

/-- Concatenation of a list of strings in order, with no delimiter. -/
def concatAll : List String → String
  | [] => ""
  | s :: rest => s ++ concatAll rest

/-- The number of capturing groups of a regex character sequence: an
unescaped opening parenthesis not followed by a question mark opens a
capturing group; a backslash escapes the following character. -/
def countCapturingGroups : List Char → Nat
  | [] => 0
  | c :: rest =>
    if c = '\\' then
      match rest with
      | [] => 0
      | _ :: rest2 => countCapturingGroups rest2
    else if c = '(' then
      (if rest.head? = some '?' then 0 else 1) + countCapturingGroups rest
    else countCapturingGroups rest

/-- A character sequence that contributes no capturing group and leaves
the counting of any right context unchanged (in particular it has no
dangling escape and no dangling open parenthesis). -/
def CFree (l : List Char) : Prop :=
  ∀ t : List Char, countCapturingGroups (l ++ t) = countCapturingGroups t

/-- Capture-freedom of a regex fragment. -/
def CaptureFree (f : String) : Prop := CFree f.data

mutual

/-- The declared type names of the Parameter nodes of the tree in
left-to-right traversal order.  A Parameter node contributes its own text
span; Text and Parameter nodes carry no node children in well-formed
trees, so only the container kinds recurse. -/
def nodeParameterNames : astNode → List String
  | astNode.mk nt nodes text =>
    match nt with
    | NodeType.parameterNode => [text]
    | NodeType.textNode => []
    | _ => nodesParameterNames nodes

/-- The parameter type names of a forest, left to right. -/
def nodesParameterNames : List astNode → List String
  | [] => []
  | n :: rest => nodeParameterNames n ++ nodesParameterNames rest

end

/-- The children of a node each rewrite successfully to a fragment, the
accumulated parameter-type list being threaded left to right. -/
inductive ChildrenRewrite (c : RewriteCtx) :
    List astNode → List ParameterType → List String → List ParameterType → Prop where
  | nil (pts : List ParameterType) : ChildrenRewrite c [] pts [] pts
  | cons (n : astNode) (rest : List astNode) (pts pts1 pts2 : List ParameterType)
      (s : String) (ss : List String) :
      rewriteNodeToRegex c n pts = Except.ok (s, pts1) →
      ChildrenRewrite c rest pts1 ss pts2 →
      ChildrenRewrite c (n :: rest) pts (s :: ss) pts2

/-- The value the de-anonymization loop of `Match` stores at position `i`
when the entry there is anonymous. -/
def resolvedEntry (c : CucumberExpression) (typeHints : List GoType) (i : Nat)
    (pt : ParameterType) : ParameterType :=
  { pt with name := (hintOrDefault i typeHints).name
            anonymous := false
            transform := objectMapperTransformer c (hintOrDefault i typeHints) }

/-- An alternative that passes all three checks of the validation loop of
`rewriteAlternation`: it has children, none of its direct children is a
Parameter node, and some direct child is a Text node. -/
def alternativePasses (alt : astNode) : Prop :=
  alt.nodes ≠ [] ∧ (∀ n ∈ alt.nodes, n.nodeType ≠ NodeType.parameterNode) ∧
    (∃ n ∈ alt.nodes, n.nodeType = NodeType.textNode)

/-- A trivial compiled tree regexp that matches nothing, for concrete
instantiations. -/
def trNone : TreeRegexp := TreeRegexp.mk "" (fun _ => none)

/-- A registry-style default transformer that wraps the matched text. -/
def strTransformer : String → GoType → Except Err Value :=
  fun s _ => Except.ok (Value.str s)

/-- Concrete non-anonymous parameter type for the C1 instantiation. -/
def ptC1 : ParameterType :=
  { name := "int", regexps := ["\\d+"], anonymous := false,
    transform := fun _ => Except.ok (Value.int 0) }

/-- Concrete registry for the C1 instantiation. -/
def regC1 : ParameterTypeRegistry :=
  { lookupByTypeName := fun _ => some ptC1, defaultTransformer := strTransformer }

/-- Concrete rewrite context for the C1 instantiation. -/
def ctxC1 : RewriteCtx :=
  { source := "src", registry := regC1, checkParameterTypeName := fun _ => Except.ok () }

/-- Concrete tree for the C1 instantiation: an expression holding one
parameter node of declared type name `int`. -/
def astC1 : astNode :=
  astNode.mk NodeType.expressionNode [astNode.mk NodeType.parameterNode [] "int"] ""

/-- The compiled expression the C1 instantiation produces. -/
def cexpC1 : CucumberExpression :=
  { source := "src", parameterTypes := [ptC1], treeRegexp := trNone,
    parameterTypeRegistry := regC1 }

/-- Concrete parameter type whose transform rejects every input, for the
C2 instantiation. -/
def ptC2 : ParameterType :=
  { name := "int", regexps := ["\\d+"], anonymous := false,
    transform := fun _ => Except.error (Err.transformError "bad") }

/-- Concrete compiled expression for the C2 instantiation: one parameter
position, and a tree regexp that matches every text with one extracted
substring. -/
def cexpC2 : CucumberExpression :=
  { source := "src", parameterTypes := [ptC2],
    treeRegexp := TreeRegexp.mk "p" (fun _ => some [[some "x"]]),
    parameterTypeRegistry := ParameterTypeRegistry.mk (fun _ => some ptC2) strTransformer }

/-- Concrete parameter type with two capture fragments for the C4
instantiation. -/
def ptC4 : ParameterType :=
  { name := "word", regexps := ["\\d+", "0x"], anonymous := false,
    transform := fun _ => Except.ok (Value.int 0) }

/-- Concrete rewrite context for the C4 instantiation. -/
def ctxC4 : RewriteCtx :=
  { source := "src",
    registry := ParameterTypeRegistry.mk (fun _ => some ptC4) strTransformer,
    checkParameterTypeName := fun _ => Except.ok () }

/-- Concrete rewrite context for the C5 instantiation. -/
def ctxC5 : RewriteCtx :=
  { source := "src",
    registry := ParameterTypeRegistry.mk (fun _ => none) strTransformer,
    checkParameterTypeName := fun _ => Except.ok () }

/-- Concrete rewrite context for the C6 instantiations. -/
def ctxC6 : RewriteCtx :=
  { source := "src",
    registry := ParameterTypeRegistry.mk (fun _ => none) strTransformer,
    checkParameterTypeName := fun _ => Except.ok () }

/-- Concrete alternative directly wrapping a parameter node: it has
children and no direct Text-node child. -/
def altC6 : astNode :=
  astNode.mk NodeType.alternativeNode [astNode.mk NodeType.parameterNode [] "x"] ""

/-- Concrete rewrite context with an empty registry for the C7
instantiation. -/
def ctxC7 : RewriteCtx :=
  { source := "src",
    registry := ParameterTypeRegistry.mk (fun _ => none) strTransformer,
    checkParameterTypeName := fun _ => Except.ok () }

/-- Concrete anonymous parameter type for the C9 instantiation. -/
def ptC9 : ParameterType :=
  { name := "", regexps := [".*"], anonymous := true,
    transform := fun _ => Except.ok (Value.str "") }

/-- Concrete compiled expression with one anonymous position for the C9
instantiation. -/
def cexpC9 : CucumberExpression :=
  { source := "src", parameterTypes := [ptC9], treeRegexp := trNone,
    parameterTypeRegistry := ParameterTypeRegistry.mk (fun _ => some ptC9) strTransformer }

/-- Concrete non-anonymous parameter type for the C10 instantiation. -/
def ptC10 : ParameterType :=
  { name := "int", regexps := ["\\d+"], anonymous := false,
    transform := fun _ => Except.ok (Value.int 7) }

/-- Concrete compiled expression with no anonymous position for the C10
instantiation. -/
def cexpC10 : CucumberExpression :=
  { source := "src", parameterTypes := [ptC10],
    treeRegexp := TreeRegexp.mk "p" (fun t => if t = "7" then some [[some "7"]] else none),
    parameterTypeRegistry := ParameterTypeRegistry.mk (fun _ => some ptC10) strTransformer }

/-- The de-anonymization loop always succeeds, returns a list of the same
length, keeps non-anonymous entries unchanged and replaces anonymous
entries at position `j` (loop index `k + j`) by the de-anonymized copy. -/
theorem deAnonymizeAll_sound (c : CucumberExpression) (typeHints : List GoType)
    (l : List ParameterType) : ∀ k : Nat,
    ∃ out, deAnonymizeAll c typeHints k l = Except.ok out ∧
      out.length = l.length ∧
      ∀ j : Nat, out[j]? = (l[j]?).map (fun pt =>
        if pt.isAnonymous then resolvedEntry c typeHints (k + j) pt else pt) := by
  induction l with
  | nil =>
    intro k
    exact ⟨[], rfl, rfl, fun j => by simp⟩
  | cons pt rest ih =>
    intro k
    obtain ⟨out, hout, hlen, hj⟩ := ih (k + 1)
    by_cases ha : pt.isAnonymous
    · refine ⟨resolvedEntry c typeHints k pt :: out, ?_, by simp [hlen], ?_⟩
      · simp [deAnonymizeAll, ha, ParameterType.deAnonymize, hout, resolvedEntry]
      · intro j
        match j with
        | 0 => simp [ha]
        | j + 1 =>
          have hk : k + (j + 1) = (k + 1) + j := by omega
          simpa [hk] using hj j
    · refine ⟨pt :: out, ?_, by simp [hlen], ?_⟩
      · simp [deAnonymizeAll, ha, hout]
      · intro j
        match j with
        | 0 => simp [ha]
        | j + 1 =>
          have hk : k + (j + 1) = (k + 1) + j := by omega
          simpa [hk] using hj j

/-- When no entry is anonymous the de-anonymization loop returns the list
unchanged. -/
theorem deAnonymizeAll_id (c : CucumberExpression) (typeHints : List GoType)
    (l : List ParameterType) (h : ∀ pt ∈ l, pt.isAnonymous = false) :
    ∀ k : Nat, deAnonymizeAll c typeHints k l = Except.ok l := by
  induction l with
  | nil => intro k; rfl
  | cons pt rest ih =>
    intro k
    have hpt : pt.isAnonymous = false := h pt (by simp)
    have hrest := ih (fun q hq => h q (by simp [hq])) (k + 1)
    simp [deAnonymizeAll, hpt, hrest]

/-- If some position's transform rejects its extracted substrings, the
whole transformation step fails with an error. -/
theorem transformAll_err : ∀ (pts : List ParameterType) (gs : List (List (Option String)))
    (i : Nat) (pt : ParameterType) (g : List (Option String)) (e : Err),
    pts[i]? = some pt → gs[i]? = some g → pt.transform g = Except.error e →
    ∃ e2, transformAll pts gs = Except.error e2 := by
  intro pts
  induction pts with
  | nil => intro gs i pt g e hpt; simp at hpt
  | cons pt0 rest ih =>
    intro gs i pt g e hpt hg hfail
    match gs with
    | [] => simp at hg
    | g0 :: gs0 =>
      match i with
      | 0 =>
        simp at hpt hg
        subst hpt; subst hg
        exact ⟨e, by simp [transformAll, hfail]⟩
      | i + 1 =>
        simp at hpt hg
        cases h0 : pt0.transform g0 with
        | error e0 => exact ⟨e0, by simp [transformAll, h0]⟩
        | ok v =>
          obtain ⟨e2, h2⟩ := ih gs0 i pt g e hpt hg hfail
          exact ⟨e2, by simp [transformAll, h0, h2]⟩

/-- C2: For every match call in which some position's transform rejects
the matched text, the failure propagates as an error result out of the
whole Match call (not as no-match), and the Compiled Expression remains
valid and reusable for subsequent Match calls (the receiver's state at
return time is its state at entry). -/
theorem c2 (c : CucumberExpression) (text : String) (typeHints : List GoType)
    (pts : List ParameterType)
    (hres : deAnonymizeAll c typeHints 0 c.parameterTypes = Except.ok pts)
    (gs : List (List (Option String)))
    (hmatch : c.treeRegexp.matchGroups text = some gs)
    (i : Nat) (pt : ParameterType) (g : List (Option String)) (e : Err)
    (hpt : pts[i]? = some pt) (hg : gs[i]? = some g)
    (hfail : pt.transform g = Except.error e) :
    (∃ e2, (Match c text typeHints).1 = Except.error e2) ∧
      (Match c text typeHints).2 = c := by
  obtain ⟨e2, h2⟩ := transformAll_err pts gs i pt g e hpt hg hfail
  constructor
  · exact ⟨e2, by simp [Match, hres, BuildArguments, hmatch, h2]⟩
  · simp [Match, hres]

/-- Witness for C2 at a concrete expression whose single parameter type
rejects every matched text. -/
theorem c2_witness :
    (∃ e2, (Match cexpC2 "t" []).1 = Except.error e2) ∧
      (Match cexpC2 "t" []).2 = cexpC2 :=
  c2 cexpC2 "t" [] [ptC2] (by rfl) [[some "x"]] (by rfl) 0 ptC2 [some "x"]
    (Err.transformError "bad") (by rfl) (by rfl) (by rfl)

/-- C8: Match never mutates the stored expression: the receiver's state at
return time, made explicit by the state-passing translation, is its state
at entry; in particular the stored parameter-type list is the same before
and after the call, for any input text and any type hints. -/
theorem c8 (c : CucumberExpression) (text : String) (typeHints : List GoType) :
    (Match c text typeHints).2 = c ∧
      (Match c text typeHints).2.parameterTypes = c.parameterTypes := by
  have h2 : (Match c text typeHints).2 = c := by
    unfold Match
    cases deAnonymizeAll c typeHints 0 c.parameterTypes <;> rfl
  exact ⟨h2, by rw [h2]⟩

/-- C9: in the de-anonymization loop, the hint used for an anonymous
position `i` is the caller's hint at index `i` when one exists and the
string type otherwise, and the working copy holds the corresponding
de-anonymized entry at position `i`. -/
theorem c9 (c : CucumberExpression) (typeHints : List GoType) (i : Nat)
    (pt : ParameterType) (hpos : c.parameterTypes[i]? = some pt)
    (hanon : pt.isAnonymous = true) :
    ∃ pts pt2, deAnonymizeAll c typeHints 0 c.parameterTypes = Except.ok pts ∧
      pts[i]? = some pt2 ∧
      pt.deAnonymize (hintOrDefault i typeHints)
        (objectMapperTransformer c (hintOrDefault i typeHints)) = Except.ok pt2 ∧
      (typeHints.length ≤ i → hintOrDefault i typeHints = stringType) ∧
      (i < typeHints.length → some (hintOrDefault i typeHints) = typeHints[i]?) := by
  obtain ⟨out, hout, hlen, hj⟩ := deAnonymizeAll_sound c typeHints c.parameterTypes 0
  refine ⟨out, resolvedEntry c typeHints i pt, hout, ?_, ?_, ?_, ?_⟩
  · have := hj i
    rw [hpos] at this
    simpa [hanon] using this
  · simp [ParameterType.deAnonymize, resolvedEntry]
  · intro hle
    simp [hintOrDefault, List.getElem?_eq_none hle]
  · intro hlt
    simp [hintOrDefault, List.getElem?_eq_getElem hlt]

/-- Witness for C9 at a concrete expression with one anonymous position
and no caller-supplied hints. -/
theorem c9_witness :
    ∃ pts pt2, deAnonymizeAll cexpC9 [] 0 cexpC9.parameterTypes = Except.ok pts ∧
      pts[0]? = some pt2 ∧
      ptC9.deAnonymize (hintOrDefault 0 [])
        (objectMapperTransformer cexpC9 (hintOrDefault 0 [])) = Except.ok pt2 ∧
      (List.length ([] : List GoType) ≤ 0 → hintOrDefault 0 [] = stringType) ∧
      (0 < List.length ([] : List GoType) →
        some (hintOrDefault 0 []) = (([] : List GoType))[0]?) :=
  c9 cexpC9 [] 0 ptC9 (by rfl) (by rfl)

/-- C10: for an expression none of whose stored parameter types is
anonymous, the result of Match is independent of the type hints. -/
theorem c10 (c : CucumberExpression)
    (h : c.parameterTypes.all (fun pt => !pt.isAnonymous) = true)
    (text : String) (typeHints1 typeHints2 : List GoType) :
    Match c text typeHints1 = Match c text typeHints2 := by
  have h2 : ∀ pt ∈ c.parameterTypes, pt.isAnonymous = false := by
    intro pt hpt
    have := List.all_eq_true.mp h pt hpt
    simpa using this
  rw [Match, Match, deAnonymizeAll_id c typeHints1 c.parameterTypes h2 0,
    deAnonymizeAll_id c typeHints2 c.parameterTypes h2 0]

/-- Witness for C10 at a concrete expression with a single non-anonymous
parameter type and two different hint lists. -/
theorem c10_witness :
    Match cexpC10 "7" [] = Match cexpC10 "7" [GoType.mk "int"] :=
  c10 cexpC10 (by rfl) "7" [] [GoType.mk "int"]

/-- The escape scan equals the per-character description: each character
of the class is emitted with a preceding backslash, every other character
unchanged, concatenated in order. -/
theorem processEscapes_concat (l : List Char) :
    String.mk (processEscapesList l) = concatAll (l.map (fun ch =>
      if escapeChars.contains ch then String.mk ['\\', ch] else String.mk [ch])) := by
  induction l with
  | nil => rfl
  | cons ch rest ih =>
    simp only [List.map_cons, concatAll, processEscapesList]
    by_cases h : escapeChars.contains ch
    · rw [if_pos h, if_pos h, ← ih]; rfl
    · rw [if_neg h, if_neg h, ← ih]; rfl

/-- C3: rewriting a Text node returns the node's text with every
occurrence of a character of the class backslash caret bracket paren
brace dollar dot bar question star plus close-brace close-paren
close-bracket prefixed by a backslash and every other character
unchanged. -/
theorem c3 (c : RewriteCtx) (children : List astNode) (text : String)
    (pts : List ParameterType) :
    rewriteNodeToRegex c (astNode.mk NodeType.textNode children text) pts =
      Except.ok (concatAll (text.data.map (fun ch =>
        if escapeChars.contains ch then String.mk ['\\', ch] else String.mk [ch])), pts) := by
  have h1 : rewriteNodeToRegex c (astNode.mk NodeType.textNode children text) pts =
      Except.ok (processEscapes text, pts) := by
    simp [rewriteNodeToRegex]
  rw [h1, processEscapes, processEscapes_concat]

/-- The builder loop with the empty delimiter produces exactly the
concatenation of the children's fragments. -/
theorem childrenRewrite_list (c : RewriteCtx) {nodes : List astNode}
    {pts : List ParameterType} {fs : List String} {pts2 : List ParameterType}
    (h : ChildrenRewrite c nodes pts fs pts2) :
    rewriteNodesList c "" nodes pts = Except.ok (concatAll fs, pts2) := by
  induction h with
  | nil pts => simp [rewriteNodesList, concatAll]
  | cons n rest pts pts1 pts2 s ss hn hrest ih =>
    cases rest with
    | nil =>
      cases hrest
      simp [rewriteNodesList, hn, concatAll]
    | cons n2 rest2 =>
      simp [rewriteNodesList, hn, ih, concatAll]

/-- C5: rewriting an Expression root whose children all rewrite
successfully yields the caret, the children's fragments concatenated in
order with no delimiter, then the dollar: a fully anchored pattern. -/
theorem c5 (c : RewriteCtx) (nodes : List astNode) (t : String)
    (pts : List ParameterType) (fs : List String) (pts2 : List ParameterType)
    (h : ChildrenRewrite c nodes pts fs pts2) :
    rewriteNodeToRegex c (astNode.mk NodeType.expressionNode nodes t) pts =
      Except.ok ("^" ++ concatAll fs ++ "$", pts2) := by
  have hl := childrenRewrite_list c h
  simp [rewriteNodeToRegex, rewriteExpression, rewriteNodesToRegex, hl]

/-- Witness for C5 at an expression with one literal text child. -/
theorem c5_witness :
    rewriteNodeToRegex ctxC5
      (astNode.mk NodeType.expressionNode [astNode.mk NodeType.textNode [] "ab"] "") [] =
      Except.ok ("^" ++ concatAll ["ab"] ++ "$", []) :=
  c5 ctxC5 [astNode.mk NodeType.textNode [] "ab"] "" [] ["ab"] []
    (ChildrenRewrite.cons (astNode.mk NodeType.textNode [] "ab") [] [] [] [] "ab" []
      (by simp [rewriteNodeToRegex]; rfl) (ChildrenRewrite.nil []))

/-- C7: a Parameter node whose declared type name passes validation but is
absent from the registry rewrites to an UndefinedParameterTypeError, and
compiling an expression starting with such a node fails with that error,
returning no Compiled Expression. -/
theorem c7 (c : RewriteCtx) (typeName : String) (children rest : List astNode)
    (t : String) (pts : List ParameterType) (compileRegexp : String → TreeRegexp)
    (hname : c.checkParameterTypeName typeName = Except.ok ())
    (habs : c.registry.lookupByTypeName typeName = none) :
    rewriteNodeToRegex c (astNode.mk NodeType.parameterNode children typeName) pts =
      Except.error (Err.undefinedParameterType typeName) ∧
    NewCucumberExpressionFromTree c compileRegexp
      (astNode.mk NodeType.expressionNode
        (astNode.mk NodeType.parameterNode children typeName :: rest) t) =
      Except.error (Err.undefinedParameterType typeName) := by
  have key : ∀ pts0 : List ParameterType,
      rewriteNodeToRegex c (astNode.mk NodeType.parameterNode children typeName) pts0 =
        Except.error (Err.undefinedParameterType typeName) := by
    intro pts0
    simp [rewriteNodeToRegex, rewriteParameter, hname, habs]
  have h2 : rewriteNodesList c ""
      (astNode.mk NodeType.parameterNode children typeName :: rest) [] =
      Except.error (Err.undefinedParameterType typeName) := by
    cases rest with
    | nil => simpa [rewriteNodesList] using key []
    | cons n2 rest2 => simp [rewriteNodesList, key []]
  refine ⟨key pts, ?_⟩
  simp [NewCucumberExpressionFromTree, rewriteNodeToRegex, rewriteExpression,
    rewriteNodesToRegex, h2]

/-- Witness for C7 at a concrete context whose registry is empty. -/
theorem c7_witness :
    rewriteNodeToRegex ctxC7 (astNode.mk NodeType.parameterNode [] "int") [] =
      Except.error (Err.undefinedParameterType "int") ∧
    NewCucumberExpressionFromTree ctxC7 (fun _ => trNone)
      (astNode.mk NodeType.expressionNode [astNode.mk NodeType.parameterNode [] "int"] "") =
      Except.error (Err.undefinedParameterType "int") :=
  c7 ctxC7 "int" [] [] "" [] (fun _ => trNone) (by rfl) (by rfl)

/-- assertNoParameters succeeds when no direct child is a Parameter
node. -/
theorem assertNoParameters_ok (src : String) (nodes : List astNode) (msg : String → String)
    (h : ∀ n ∈ nodes, n.nodeType ≠ NodeType.parameterNode) :
    assertNoParameters src nodes msg = Except.ok () := by
  have hb : nodes.any (fun n => n.nodeType == NodeType.parameterNode) = false := by
    simp only [List.any_eq_false]
    intro n hn
    simpa using h n hn
  simp [assertNoParameters, hb]

/-- assertNotEmpty succeeds when some direct child is a Text node. -/
theorem assertNotEmpty_ok (src : String) (nodes : List astNode) (msg : String → String)
    (h : ∃ n ∈ nodes, n.nodeType = NodeType.textNode) :
    assertNotEmpty src nodes msg = Except.ok () := by
  have hb : nodes.any (fun n => n.nodeType == NodeType.textNode) = true := by
    rcases h with ⟨n, hn, ht⟩
    exact List.any_eq_true.mpr ⟨n, hn, by simp [ht]⟩
  simp [assertNotEmpty, hb]

/-- assertNotEmpty fails with the given message when no direct child is a
Text node. -/
theorem assertNotEmpty_err (src : String) (nodes : List astNode) (msg : String → String)
    (h : ∀ n ∈ nodes, n.nodeType ≠ NodeType.textNode) :
    assertNotEmpty src nodes msg = Except.error (Err.cucumberExpressionError (msg src)) := by
  have hb : nodes.any (fun n => n.nodeType == NodeType.textNode) = false := by
    simp only [List.any_eq_false]
    intro n hn
    simpa using h n hn
  simp [assertNotEmpty, hb]

/-- The validation loop skips a leading block of alternatives that pass
all three checks. -/
theorem validateAlternatives_append (src : String) (pre l : List astNode)
    (hpre : ∀ a ∈ pre, alternativePasses a) :
    validateAlternatives src (pre ++ l) = validateAlternatives src l := by
  induction pre with
  | nil => rfl
  | cons a pre2 ih =>
    obtain ⟨hne, hnp, hte⟩ := hpre a (by simp)
    have hih := ih (fun b hb => hpre b (by simp [hb]))
    have hlen : ¬ (a.nodes.length = 0) := by
      simpa [List.length_eq_zero] using hne
    simp [validateAlternatives, hlen, assertNoParameters_ok src a.nodes _ hnp,
      assertNotEmpty_ok src a.nodes _ hte, hih]

/-- C6 counterexample: an Alternative that has children but no direct
Text-node child, namely one directly wrapping a Parameter node, makes the
Alternation rewrite fail with the parameter-types-cannot-be-alternative
error, not with the exclusively-contain-optionals error. -/
theorem c6_counterexample :
    altC6.nodes ≠ [] ∧
    (∀ n ∈ altC6.nodes, n.nodeType ≠ NodeType.textNode) ∧
    rewriteNodeToRegex ctxC6 (astNode.mk NodeType.alternationNode [altC6] "") [] =
      Except.error (Err.cucumberExpressionError (parameterTypesCanNotBeAlternative "src")) ∧
    Err.cucumberExpressionError (parameterTypesCanNotBeAlternative "src") ≠
      Err.cucumberExpressionError (alternativeMayNotExclusivelyContainOptionals "src") := by
  refine ⟨by simp [altC6, astNode.nodes], ?_, ?_, by decide⟩
  · intro n hn
    simp [altC6, astNode.nodes] at hn
    subst hn
    decide
  · have hv : validateAlternatives ctxC6.source [altC6] =
        Except.error (Err.cucumberExpressionError (parameterTypesCanNotBeAlternative "src")) := by
      rfl
    simp [rewriteNodeToRegex, rewriteAlternation, hv]

/-- C6 (amended): in the validation loop of an Alternation, once the
preceding Alternatives pass validation, an Alternative with zero children
fails with the AlternativesMayNotBeEmpty error, while an Alternative that
has children, none of which is a Parameter node, and no direct Text-node
child fails with the AlternativeMayNotExclusivelyContainOptionals error;
the two error messages differ. -/
theorem c6 (c : RewriteCtx) (pre post : List astNode) (alt : astNode) (t : String)
    (pts : List ParameterType) (hpre : ∀ a ∈ pre, alternativePasses a) :
    (alt.nodes = [] →
      rewriteNodeToRegex c (astNode.mk NodeType.alternationNode (pre ++ alt :: post) t) pts =
        Except.error (Err.cucumberExpressionError (alternativesMayNotBeEmpty c.source))) ∧
    (alt.nodes ≠ [] →
      (∀ n ∈ alt.nodes, n.nodeType ≠ NodeType.parameterNode) →
      (∀ n ∈ alt.nodes, n.nodeType ≠ NodeType.textNode) →
      rewriteNodeToRegex c (astNode.mk NodeType.alternationNode (pre ++ alt :: post) t) pts =
        Except.error
          (Err.cucumberExpressionError (alternativeMayNotExclusivelyContainOptionals c.source))) ∧
    alternativesMayNotBeEmpty c.source ≠ alternativeMayNotExclusivelyContainOptionals c.source := by
  refine ⟨?_, ?_, ?_⟩
  · intro hempty
    have hv : validateAlternatives c.source (pre ++ alt :: post) =
        Except.error (Err.cucumberExpressionError (alternativesMayNotBeEmpty c.source)) := by
      rw [validateAlternatives_append c.source pre _ hpre]
      have hlen : alt.nodes.length = 0 := by simp [hempty]
      simp [validateAlternatives, hlen]
    simp [rewriteNodeToRegex, rewriteAlternation, hv]
  · intro hne hnp hnt
    have hv : validateAlternatives c.source (pre ++ alt :: post) =
        Except.error
          (Err.cucumberExpressionError (alternativeMayNotExclusivelyContainOptionals c.source)) := by
      rw [validateAlternatives_append c.source pre _ hpre]
      have hlen : ¬ (alt.nodes.length = 0) := by
        simpa [List.length_eq_zero] using hne
      simp [validateAlternatives, hlen, assertNoParameters_ok c.source alt.nodes _ hnp,
        assertNotEmpty_err c.source alt.nodes _ hnt]
    simp [rewriteNodeToRegex, rewriteAlternation, hv]
  · intro heq
    have hlen := congrArg String.length heq
    rw [alternativesMayNotBeEmpty, alternativeMayNotExclusivelyContainOptionals,
      String.length_append, String.length_append] at hlen
    have e1 : ("Alternative may not be empty: ").length = 30 := rfl
    have e2 : ("Alternative may not exclusively contain optionals: ").length = 51 := rfl
    rw [e1, e2] at hlen
    omega

/-- Witness for the amended C6 at an alternation whose only alternative is
empty. -/
theorem c6_witness :
    ((astNode.mk NodeType.alternativeNode [] "").nodes = [] →
      rewriteNodeToRegex ctxC6
        (astNode.mk NodeType.alternationNode
          ([] ++ astNode.mk NodeType.alternativeNode [] "" :: []) "") [] =
        Except.error (Err.cucumberExpressionError (alternativesMayNotBeEmpty ctxC6.source))) ∧
    ((astNode.mk NodeType.alternativeNode [] "").nodes ≠ [] →
      (∀ n ∈ (astNode.mk NodeType.alternativeNode [] "").nodes,
        n.nodeType ≠ NodeType.parameterNode) →
      (∀ n ∈ (astNode.mk NodeType.alternativeNode [] "").nodes,
        n.nodeType ≠ NodeType.textNode) →
      rewriteNodeToRegex ctxC6
        (astNode.mk NodeType.alternationNode
          ([] ++ astNode.mk NodeType.alternativeNode [] "" :: []) "") [] =
        Except.error
          (Err.cucumberExpressionError
            (alternativeMayNotExclusivelyContainOptionals ctxC6.source))) ∧
    alternativesMayNotBeEmpty ctxC6.source ≠
      alternativeMayNotExclusivelyContainOptionals ctxC6.source :=
  c6 ctxC6 [] [] (astNode.mk NodeType.alternativeNode [] "") "" [] (by simp)

/-- Capture-freedom is closed under concatenation. -/
theorem cfree_append {a b : List Char} (ha : CFree a) (hb : CFree b) : CFree (a ++ b) := by
  intro t
  rw [List.append_assoc, ha, hb]

/-- Counting equation: an escape consumes the following character. -/
theorem count_backslash (c2 : Char) (rest : List Char) :
    countCapturingGroups ('\\' :: c2 :: rest) = countCapturingGroups rest := by
  rw [countCapturingGroups.eq_def]
  simp

/-- Counting equation: an unescaped opening parenthesis counts unless
followed by a question mark. -/
theorem count_paren (rest : List Char) :
    countCapturingGroups ('(' :: rest) =
      (if rest.head? = some '?' then 0 else 1) + countCapturingGroups rest := by
  rw [countCapturingGroups.eq_def]
  have h1 : ¬ (('(' : Char) = '\\') := by decide
  simp [h1]

/-- Counting equation: any other character is skipped. -/
theorem count_other (ch : Char) (rest : List Char) (h1 : ¬ (ch = '\\')) (h2 : ¬ (ch = '(')) :
    countCapturingGroups (ch :: rest) = countCapturingGroups rest := by
  rw [countCapturingGroups.eq_def]
  simp [h1, h2]

/-- A single character other than a backslash or an opening parenthesis is
capture-free. -/
theorem cfree_char (ch : Char) (h1 : ¬ (ch = '\\')) (h2 : ¬ (ch = '(')) : CFree [ch] := by
  intro t
  simp only [List.singleton_append]
  rw [count_other ch t h1 h2]

/-- Wrapping a capture-free fragment in a non-capturing group keeps it
capture-free. -/
theorem cfree_nc_wrap {f : List Char} (hf : CFree f) :
    CFree ('(' :: '?' :: ':' :: (f ++ [')'])) := by
  intro t
  simp only [List.cons_append, List.append_assoc, List.singleton_append, List.nil_append]
  rw [count_paren]
  simp only [List.head?_cons]
  rw [if_pos trivial, count_other '?' _ (by decide) (by decide),
    count_other ':' _ (by decide) (by decide), hf (')' :: t),
    count_other ')' _ (by decide) (by decide), Nat.zero_add]

/-- Wrapping any capture-free sequence, not starting with a question mark,
in parentheses yields exactly one capturing group. -/
theorem paren_wrap_count (g : List Char) (hg : CFree g) (hh : g.head? ≠ some '?') :
    countCapturingGroups ('(' :: (g ++ [')'])) = 1 := by
  have hrest : countCapturingGroups (g ++ [')']) = 0 := by
    rw [hg [')']]
    rfl
  have hhead : ¬ ((g ++ [')']).head? = some '?') := by
    cases g with
    | nil => simp
    | cons a l => simpa using hh
  rw [count_paren, if_neg hhead, hrest]

/-- The character data of a non-capturing wrap of a fragment. -/
theorem wrap_data (r : String) :
    ("(?:" ++ r ++ ")").data = '(' :: '?' :: ':' :: (r.data ++ [')']) := by
  rw [String.data_append, String.data_append]
  rfl

/-- The bar-joined non-capturing alternatives of capture-free fragments
are capture-free. -/
theorem join_cfree : ∀ rs : List String, (∀ f ∈ rs, CaptureFree f) →
    CFree ((stringsJoin (rs.map (fun r => "(?:" ++ r ++ ")")) "|").data) := by
  intro rs
  induction rs with
  | nil =>
    intro _
    intro t
    rfl
  | cons r rest ih =>
    intro h
    have hr : CaptureFree r := h r (by simp)
    cases rest with
    | nil =>
      have : stringsJoin ([r].map (fun q => "(?:" ++ q ++ ")")) "|" = "(?:" ++ r ++ ")" := rfl
      rw [this, wrap_data]
      exact cfree_nc_wrap hr
    | cons r2 rest2 =>
      have hih := ih (fun q hq => h q (by simp [hq]))
      have hjoin : stringsJoin ((r :: r2 :: rest2).map (fun q => "(?:" ++ q ++ ")")) "|" =
          ("(?:" ++ r ++ ")") ++ "|" ++ stringsJoin ((r2 :: rest2).map (fun q => "(?:" ++ q ++ ")")) "|" := by
        rfl
      rw [hjoin, String.data_append, String.data_append, wrap_data]
      refine cfree_append (cfree_append ?_ ?_) hih
      · exact cfree_nc_wrap hr
      · exact cfree_char '|' (by decide) (by decide)

/-- The bar-joined alternatives of a non-empty fragment list start with an
opening parenthesis. -/
theorem join_head (r : String) (rest : List String) :
    ((stringsJoin ((r :: rest).map (fun q => "(?:" ++ q ++ ")")) "|").data).head? = some '(' := by
  cases rest with
  | nil =>
    have : stringsJoin ([r].map (fun q => "(?:" ++ q ++ ")")) "|" = "(?:" ++ r ++ ")" := rfl
    rw [this, wrap_data]
    rfl
  | cons r2 rest2 =>
    have hjoin : stringsJoin ((r :: r2 :: rest2).map (fun q => "(?:" ++ q ++ ")")) "|" =
        ("(?:" ++ r ++ ")") ++ "|" ++ stringsJoin ((r2 :: rest2).map (fun q => "(?:" ++ q ++ ")")) "|" := by
      rfl
    rw [hjoin, String.data_append, String.data_append, wrap_data]
    rfl

/-- The emitted capture group of a parameter type whose fragments are
capture-free and do not start with a question mark contains exactly one
capturing group. -/
theorem buildCapture_one_group (regexps : List String)
    (h : ∀ f ∈ regexps, CaptureFree f ∧ f.data.head? ≠ some '?') :
    countCapturingGroups (buildCaptureRegexp regexps).data = 1 := by
  match regexps with
  | [r] =>
    obtain ⟨hfree, hhead⟩ := h r (by simp)
    have hdata : ("(" ++ r ++ ")").data = '(' :: (r.data ++ [')']) := by
      rw [String.data_append, String.data_append]
      rfl
    have : buildCaptureRegexp [r] = "(" ++ r ++ ")" := rfl
    rw [this, hdata]
    exact paren_wrap_count r.data hfree hhead
  | [] =>
    rfl
  | r :: r2 :: rest =>
    have hb : buildCaptureRegexp (r :: r2 :: rest) =
        "(" ++ stringsJoin ((r :: r2 :: rest).map (fun q => "(?:" ++ q ++ ")")) "|" ++ ")" := rfl
    have hdata : ("(" ++ stringsJoin ((r :: r2 :: rest).map (fun q => "(?:" ++ q ++ ")")) "|" ++ ")").data =
        '(' :: ((stringsJoin ((r :: r2 :: rest).map (fun q => "(?:" ++ q ++ ")")) "|").data ++ [')']) := by
      rw [String.data_append, String.data_append]
      rfl
    rw [hb, hdata]
    refine paren_wrap_count _ (join_cfree (r :: r2 :: rest) (fun f hf => (h f hf).1)) ?_
    rw [join_head r (r2 :: rest)]
    decide

/-- C4: a Parameter node whose type name is valid and found in the
registry emits exactly the capture group built from the type's fragments:
a single fragment is wrapped directly as one capturing group, several
fragments are each wrapped as a non-capturing alternative and joined with
a bar inside one capturing group; provided the fragments are themselves
capture-free and do not start with a question mark, the emitted fragment
contains exactly one capturing group. -/
theorem c4 (c : RewriteCtx) (typeName : String) (children : List astNode)
    (pts : List ParameterType) (pt : ParameterType)
    (hname : c.checkParameterTypeName typeName = Except.ok ())
    (hfound : c.registry.lookupByTypeName typeName = some pt)
    (hfree : ∀ f ∈ pt.regexps, CaptureFree f ∧ f.data.head? ≠ some '?') :
    rewriteNodeToRegex c (astNode.mk NodeType.parameterNode children typeName) pts =
      Except.ok (buildCaptureRegexp pt.regexps, pts ++ [pt]) ∧
    buildCaptureRegexp pt.regexps =
      (match pt.regexps with
       | [r] => "(" ++ r ++ ")"
       | rs => "(" ++ stringsJoin (rs.map (fun r => "(?:" ++ r ++ ")")) "|" ++ ")") ∧
    countCapturingGroups (buildCaptureRegexp pt.regexps).data = 1 := by
  refine ⟨?_, ?_, buildCapture_one_group pt.regexps hfree⟩
  · simp [rewriteNodeToRegex, rewriteParameter, hname, hfound]
  · rfl

/-- Witness for C4 at a concrete parameter type with two capture-free
fragments. -/
theorem c4_witness :
    rewriteNodeToRegex ctxC4 (astNode.mk NodeType.parameterNode [] "word") [] =
      Except.ok (buildCaptureRegexp ptC4.regexps, [] ++ [ptC4]) ∧
    buildCaptureRegexp ptC4.regexps =
      (match ptC4.regexps with
       | [r] => "(" ++ r ++ ")"
       | rs => "(" ++ stringsJoin (rs.map (fun r => "(?:" ++ r ++ ")")) "|" ++ ")") ∧
    countCapturingGroups (buildCaptureRegexp ptC4.regexps).data = 1 :=
  c4 ctxC4 "word" [] [] ptC4 (by rfl) (by rfl) (by
    intro f hf
    have hm : f = "\\d+" ∨ f = "0x" := by simpa [ptC4] using hf
    rcases hm with hm | hm
    · subst hm
      refine ⟨?_, by decide⟩
      intro t
      have hd : ("\\d+").data = '\\' :: 'd' :: '+' :: [] := rfl
      rw [hd]
      simp only [List.cons_append, List.nil_append]
      rw [count_backslash, count_other '+' t (by decide) (by decide)]
    · subst hm
      refine ⟨?_, by decide⟩
      intro t
      have hd : ("0x").data = '0' :: 'x' :: [] := rfl
      rw [hd]
      simp only [List.cons_append, List.nil_append]
      rw [count_other '0' _ (by decide) (by decide),
        count_other 'x' t (by decide) (by decide)])

/-- A successful rewrite of any node appends to the threaded
parameter-type list exactly the registry's Parameter Types for the
Parameter nodes of that subtree, in left-to-right traversal order
(simultaneously for all seven mutually recursive rewrite functions). -/
theorem rewriteNode_params (c : RewriteCtx) :
    ∀ (node : astNode) (pts : List ParameterType),
      ∀ out, rewriteNodeToRegex c node pts = Except.ok out →
        ∃ delta, out.2 = pts ++ delta ∧
          List.Forall₂ (fun nm pt => c.registry.lookupByTypeName nm = some pt)
            (nodeParameterNames node) delta := by
  refine rewriteNodeToRegex.induct c
    (fun node pts => ∀ out, rewriteNodeToRegex c node pts = Except.ok out →
      ∃ delta, out.2 = pts ++ delta ∧
        List.Forall₂ (fun nm pt => c.registry.lookupByTypeName nm = some pt)
          (nodeParameterNames node) delta)
    (fun nodes pts => ∀ out, rewriteExpression c nodes pts = Except.ok out →
      ∃ delta, out.2 = pts ++ delta ∧
        List.Forall₂ (fun nm pt => c.registry.lookupByTypeName nm = some pt)
          (nodesParameterNames nodes) delta)
    (fun nodes delim p s pts => ∀ out, rewriteNodesToRegex c nodes delim p s pts = Except.ok out →
      ∃ delta, out.2 = pts ++ delta ∧
        List.Forall₂ (fun nm pt => c.registry.lookupByTypeName nm = some pt)
          (nodesParameterNames nodes) delta)
    (fun delim nodes pts => ∀ out, rewriteNodesList c delim nodes pts = Except.ok out →
      ∃ delta, out.2 = pts ++ delta ∧
        List.Forall₂ (fun nm pt => c.registry.lookupByTypeName nm = some pt)
          (nodesParameterNames nodes) delta)
    (fun nodes pts => ∀ out, rewriteAlternative c nodes pts = Except.ok out →
      ∃ delta, out.2 = pts ++ delta ∧
        List.Forall₂ (fun nm pt => c.registry.lookupByTypeName nm = some pt)
          (nodesParameterNames nodes) delta)
    (fun nodes pts => ∀ out, rewriteAlternation c nodes pts = Except.ok out →
      ∃ delta, out.2 = pts ++ delta ∧
        List.Forall₂ (fun nm pt => c.registry.lookupByTypeName nm = some pt)
          (nodesParameterNames nodes) delta)
    (fun nodes pts => ∀ out, rewriteOptional c nodes pts = Except.ok out →
      ∃ delta, out.2 = pts ++ delta ∧
        List.Forall₂ (fun nm pt => c.registry.lookupByTypeName nm = some pt)
          (nodesParameterNames nodes) delta)
    ?_ ?_ ?_ ?_ ?_ ?_ ?_ ?_ ?_ ?_ ?_ ?_ ?_ ?_ ?_ ?_ ?_ ?_ ?_ ?_
  · intro pts nodes text out hout
    simp only [rewriteNodeToRegex, Except.ok.injEq] at hout
    refine ⟨[], ?_, ?_⟩
    · rw [← hout]
      simp
    · simp [nodeParameterNames]
  · intro pts nodes text ih out hout
    simp only [rewriteNodeToRegex] at hout
    obtain ⟨delta, hd, hf⟩ := ih out hout
    exact ⟨delta, hd, by simpa [nodeParameterNames] using hf⟩
  · intro pts nodes text ih out hout
    simp only [rewriteNodeToRegex] at hout
    obtain ⟨delta, hd, hf⟩ := ih out hout
    exact ⟨delta, hd, by simpa [nodeParameterNames] using hf⟩
  · intro pts nodes text ih out hout
    simp only [rewriteNodeToRegex] at hout
    obtain ⟨delta, hd, hf⟩ := ih out hout
    exact ⟨delta, hd, by simpa [nodeParameterNames] using hf⟩
  · intro pts nodes text out hout
    simp only [rewriteNodeToRegex, rewriteParameter] at hout
    cases hc : c.checkParameterTypeName text with
    | error e => rw [hc] at hout; simp at hout
    | ok u =>
      rw [hc] at hout
      cases hl : c.registry.lookupByTypeName text with
      | none => rw [hl] at hout; simp at hout
      | some pt =>
        rw [hl] at hout
        simp only [Except.ok.injEq] at hout
        refine ⟨[pt], ?_, ?_⟩
        · rw [← hout]
        · simp only [nodeParameterNames]
          exact List.forall₂_cons.mpr ⟨hl, List.Forall₂.nil⟩
  · intro pts nodes text ih out hout
    simp only [rewriteNodeToRegex] at hout
    obtain ⟨delta, hd, hf⟩ := ih out hout
    exact ⟨delta, hd, by simpa [nodeParameterNames] using hf⟩
  · intro nodes pts ih out hout
    simp only [rewriteExpression] at hout
    exact ih out hout
  · intro nodes delim p s pts e herr ih out hout
    simp [rewriteNodesToRegex, herr] at hout
  · intro nodes delim p s pts s2 pts2 hok ih out hout
    simp only [rewriteNodesToRegex, hok, Except.ok.injEq] at hout
    obtain ⟨delta, hd, hf⟩ := ih (s2, pts2) hok
    refine ⟨delta, ?_, hf⟩
    rw [← hout]
    exact hd
  · intro delim pts out hout
    simp only [rewriteNodesList, Except.ok.injEq] at hout
    refine ⟨[], ?_, ?_⟩
    · rw [← hout]
      simp
    · simp [nodesParameterNames]
  · intro delim n pts ih out hout
    simp only [rewriteNodesList] at hout
    obtain ⟨delta, hd, hf⟩ := ih out hout
    refine ⟨delta, hd, ?_⟩
    simpa [nodesParameterNames] using hf
  · intro delim n rest pts hne e herr ih out hout
    match rest, hne with
    | r2 :: rest2, _ =>
      simp [rewriteNodesList, herr] at hout
  · intro delim n rest pts hne s pts2 hok e herr ih1 ih4 out hout
    match rest, hne with
    | r2 :: rest2, _ =>
      simp [rewriteNodesList, hok, herr] at hout
  · intro delim n rest pts hne s pts2 hok s2 pts2b hok2 ih1 ih4 out hout
    match rest, hne with
    | r2 :: rest2, _ =>
      simp only [rewriteNodesList, hok, hok2, Except.ok.injEq] at hout
      obtain ⟨d1, hd1, hf1⟩ := ih1 (s, pts2) hok
      obtain ⟨d2, hd2, hf2⟩ := ih4 (s2, pts2b) hok2
      have hd1b : pts2 = pts ++ d1 := hd1
      have hd2b : pts2b = pts2 ++ d2 := hd2
      refine ⟨d1 ++ d2, ?_, ?_⟩
      · rw [← hout]
        simp only
        rw [hd2b, hd1b, List.append_assoc]
      · simp only [nodesParameterNames]
        exact List.rel_append hf1 hf2
  · intro nodes pts ih out hout
    simp only [rewriteAlternative] at hout
    exact ih out hout
  · intro nodes pts e hv out hout
    simp [rewriteAlternation, hv] at hout
  · intro nodes pts a hv ih out hout
    simp only [rewriteAlternation, hv] at hout
    exact ih out hout
  · intro nodes pts e hv out hout
    simp [rewriteOptional, hv] at hout
  · intro nodes pts a hv e hv2 out hout
    simp [rewriteOptional, hv, hv2] at hout
  · intro nodes pts a hv a2 hv2 ih out hout
    simp only [rewriteOptional, hv, hv2] at hout
    exact ih out hout

/-- C1: for every expression tree that compiles successfully, the compiled
expression's stored parameter-type list has exactly one entry per
Parameter node of the tree, in left-to-right traversal order, each entry
being the registry's Parameter Type for that node's declared type name. -/
theorem c1 (c : RewriteCtx) (compileRegexp : String → TreeRegexp) (ast : astNode)
    (cexp : CucumberExpression)
    (h : NewCucumberExpressionFromTree c compileRegexp ast = Except.ok cexp) :
    List.Forall₂ (fun nm pt => c.registry.lookupByTypeName nm = some pt)
      (nodeParameterNames ast) cexp.parameterTypes := by
  unfold NewCucumberExpressionFromTree at h
  cases hr : rewriteNodeToRegex c ast [] with
  | error e => rw [hr] at h; simp at h
  | ok out =>
    obtain ⟨pat, pts⟩ := out
    rw [hr] at h
    simp only [Except.ok.injEq] at h
    obtain ⟨delta, hd, hf⟩ := rewriteNode_params c ast [] (pat, pts) hr
    simp only [List.nil_append] at hd
    rw [← h]
    simpa [hd] using hf

/-- Witness for C1 at a concrete expression tree with one parameter node
of type name `int`. -/
theorem c1_witness :
    List.Forall₂ (fun nm pt => ctxC1.registry.lookupByTypeName nm = some pt)
      (nodeParameterNames astC1) cexpC1.parameterTypes :=
  c1 ctxC1 (fun _ => trNone) astC1 cexpC1 (by
    simp [NewCucumberExpressionFromTree, rewriteNodeToRegex, rewriteExpression,
      rewriteNodesToRegex, rewriteNodesList, rewriteParameter, astC1, ctxC1, regC1, cexpC1])

end CucumberExpressions
